import Mathlib

/-!
# Verification of the CAPF equilibrium and simulation engine

Shallow embedding of the core numeric, equilibrium, investment-solver and
round-simulation code of the CAPF repository, together with theorems settling
the specification claims about it.

Conventions:
* JavaScript `number` arithmetic is modelled over `ℝ`; the IEEE sentinel values
  `-Infinity` / `+Infinity` produced by guarded edge cases are modelled with
  `EReal` (`⊥` / `⊤`) at the functions that produce or consume them.
* `Math.round x` is `⌊x + 1/2⌋`, which is Mathlib's `round`.
* Randomness (`sampleNormal`) is modelled by explicitly passed draw values, as
  the specification requires the random source to be injectable.
-/

namespace CAPF

noncomputable section

/-! ## Numeric primitives (src/capf-app/src/simulation/math.ts) -/

/-- Coefficient `p` of the Abramowitz–Stegun rational approximation. -/
def pAS : ℝ := 0.3275911

/-- Coefficient `a1` of the Abramowitz–Stegun rational approximation. -/
def aAS1 : ℝ := 0.254829592

/-- Coefficient `a2`. -/
def aAS2 : ℝ := -0.284496736

/-- Coefficient `a3`. -/
def aAS3 : ℝ := 1.421413741

/-- Coefficient `a4`. -/
def aAS4 : ℝ := -1.453152027

/-- Coefficient `a5`. -/
def aAS5 : ℝ := 1.061405429

/-- The polynomial part of the Abramowitz–Stegun approximation, multiplied by
its trailing factor `t`: in the source, `normalCDF` computes
`(((((a5*t + a4)*t) + a3)*t + a2)*t + a1) * t`. -/
def Qerf (t : ℝ) : ℝ := ((((aAS5 * t + aAS4) * t + aAS3) * t + aAS2) * t + aAS1) * t

/-- `normalCDF(x)`: standard normal CDF via the fixed-coefficient rational
approximation of the source (`math.ts`), with the sign handled through
`Φ(-x) = 1 - Φ(x)`. -/
def normalCDF (x : ℝ) : ℝ :=
  let sign : ℝ := if x < 0 then -1 else 1
  let absX : ℝ := |x| / Real.sqrt 2
  let t : ℝ := 1 / (1 + pAS * absX)
  let y : ℝ := 1 - Qerf t * Real.exp (-(absX * absX))
  0.5 * (1 + sign * y)

/-- `normalCDFInverse(p)` (Acklam rational approximation, `math.ts`), on the
finite domain `0 < p < 1`.  The source's sentinel branches (`p ≤ 0 ↦ -Infinity`,
`p ≥ 1 ↦ +Infinity`) are modelled at the call site, `computeAttackCutoff`,
which tests its argument before invoking this function. -/
def ackA1 : ℝ := -39.69683028665376
def ackA2 : ℝ := 220.9460984245205
def ackA3 : ℝ := -275.9285104469687
def ackA4 : ℝ := 138.3577518672690
def ackA5 : ℝ := -30.66479806614716
def ackA6 : ℝ := 2.506628277459239
def ackB1 : ℝ := -54.47609879822406
def ackB2 : ℝ := 161.5858368580409
def ackB3 : ℝ := -155.6989798598866
def ackB4 : ℝ := 66.80131188771972
def ackB5 : ℝ := -13.28068155288572
def ackC1 : ℝ := -0.007784894002430293
def ackC2 : ℝ := -0.3223964580411365
def ackC3 : ℝ := -2.400758277161838
def ackC4 : ℝ := -2.549732539343734
def ackC5 : ℝ := 4.374664141464968
def ackC6 : ℝ := 2.938163982698783
def ackD1 : ℝ := 0.007784695709041462
def ackD2 : ℝ := 0.3224671290700398
def ackD3 : ℝ := 2.445134137142996
def ackD4 : ℝ := 3.754408661907416

/-- Tail-region expression of the Acklam approximation. -/
def ackTail (q : ℝ) : ℝ :=
  (((((ackC1 * q + ackC2) * q + ackC3) * q + ackC4) * q + ackC5) * q + ackC6) /
    ((((ackD1 * q + ackD2) * q + ackD3) * q + ackD4) * q + 1)

def normalCDFInverse (p : ℝ) : ℝ :=
  if p = 0.5 then 0
  else if p < 0.02425 then
    ackTail (Real.sqrt (-2 * Real.log p))
  else if p ≤ 1 - 0.02425 then
    let q := p - 0.5
    let r := q * q
    ((((((ackA1 * r + ackA2) * r + ackA3) * r + ackA4) * r + ackA5) * r + ackA6) * q) /
      (((((ackB1 * r + ackB2) * r + ackB3) * r + ackB4) * r + ackB5) * r + 1)
  else
    -ackTail (Real.sqrt (-2 * Real.log (1 - p)))

/-- Pointwise derivative of `Qerf`. -/
def QerfDeriv (t : ℝ) : ℝ :=
  5 * aAS5 * t ^ 4 + 4 * aAS4 * t ^ 3 + 3 * aAS3 * t ^ 2 + 2 * aAS2 * t + aAS1

/-- The factor `Qerf(t(z)) · exp(-z²)` of the coded CDF, as a function of the
scaled absolute argument `z = |x|/√2`. -/
def Gfun (z : ℝ) : ℝ :=
  Qerf (1 / (1 + pAS * z)) * Real.exp (-(z * z))

/-! ## Equilibrium computation (src/unnamed/part_001, `equilibrium.ts`)

This stage of the code models asymmetric base capabilities `w1 ≠ w2` with a
single shared noise scale `sigma`; its `ModelParameters` usage is exactly the
fields below. -/

/-- The parameter fields read by the equilibrium module. -/
structure EqParams where
  w1 : ℝ
  w2 : ℝ
  sigma : ℝ
  T : ℝ
  c_m : ℝ
  V : ℝ
  theta : ℝ

/-- `computeTau`: attack threshold `τ = (V/2 + θ)/(V + θ)`. -/
def computeTau (V theta : ℝ) : ℝ := (V / 2 + theta) / (V + theta)

/-- `computeB`: probability mass cut off by observing signal `y_j`. -/
def computeB (yj w sigma : ℝ) : ℝ := normalCDF ((yj - w) / sigma)

open Classical in
/-- `computeAttackCutoff(params, yj, tau, opponentW)`: returns `-Infinity`
(`⊥`) when the argument of `Φ⁻¹` is `≤ 0`, `+Infinity` (`⊤`) when it is `≥ 1`,
and the finite formula otherwise. -/
def computeAttackCutoff (p : EqParams) (yj tau opponentW : ℝ) : EReal :=
  let Bj := computeB yj opponentW p.sigma
  let arg := Bj + (1 - Bj) * tau
  if arg ≤ 0 then ⊥
  else if 1 ≤ arg then ⊤
  else ((opponentW + p.T + p.sigma * normalCDFInverse arg : ℝ) : EReal)

open Classical in
/-- `normalCDF((k - w) / sigma)` for a possibly infinite `k`, following IEEE
propagation for `sigma > 0`: `±Infinity` standardizes to `±Infinity`, and the
source `normalCDF` evaluates to `1` at `+Infinity` and `0` at `-Infinity`. -/
def PhiShift (k : EReal) (w sigma : ℝ) : ℝ :=
  if k = ⊥ then 0
  else if k = ⊤ then 1
  else normalCDF ((k.toReal - w) / sigma)

open Classical in
/-- The fixed-iteration bisection loop of `computeSignalingCutoffForState`,
with the source's early return when the net benefit is within `1e-6`. -/
def bisect (benefit L : ℝ → ℝ) : ℕ → ℝ → ℝ → ℝ
  | 0, lo, hi => (lo + hi) / 2
  | Nat.succ n, lo, hi =>
      let mid := (lo + hi) / 2
      let net := benefit mid - L mid
      if |net| < 1e-6 then mid
      else if 0 < net then bisect benefit L n lo mid
      else bisect benefit L n mid hi

open Classical in
/-- `computeSignalingCutoffForState` on a finite attack cutoff.  `A(y)` is the
opponent's attack probability given our signal `y`; `L` the approximate minor
conflict loss; bisection seeks `benefit = L`. -/
def computeSignalingCutoffForState (p : EqParams) (tau ownKStar ownW opponentW : ℝ) : ℝ :=
  let A : ℝ → ℝ := fun y =>
    1 - PhiShift (computeAttackCutoff p y tau ownW) opponentW p.sigma
  let deltaA : ℝ → ℝ := fun K => A 0 - A K
  let L : ℝ → ℝ := fun K => p.c_m + K * opponentW / (K + opponentW + 0.01)
  let benefit : ℝ → ℝ := fun K => deltaA K * p.V / 2
  let testPoint := ownKStar * 0.99
  if benefit testPoint < L testPoint then ownKStar
  else
    let lo := if L (ownW * 0.5) ≤ benefit (ownW * 0.5) then (0 : ℝ) else ownW * 0.5
    bisect benefit L 50 lo ownKStar

open Classical in
/-- `computeSignalingCutoffForState` fed with the possibly infinite attack
cutoff, as `computeEquilibrium` does.  On `±Infinity` the source bisection
degenerates: every midpoint is `±Infinity` (`|NaN| < 1e-6` and `NaN > 0` are
both false, so `lo` absorbs the midpoint) and the returned value is
`±Infinity` itself. -/
def signalingCutoffE (p : EqParams) (tau : ℝ) (k : EReal) (ownW opponentW : ℝ) : EReal :=
  if k = ⊥ then ⊥
  else if k = ⊤ then ⊤
  else ((computeSignalingCutoffForState p tau k.toReal ownW opponentW : ℝ) : EReal)

/-- `computeCatastropheProbability(params, warProbability)`: war probability
times the mass of the capability gap inside `(-T, T)`; the gap is treated as
normal with mean `w1 - w2` and scale `σ√2`. -/
def computeCatastropheProbability (p : EqParams) (warProbability : ℝ) : ℝ :=
  let meanDiff := p.w1 - p.w2
  let combinedSigma := p.sigma * Real.sqrt 2
  let probNoDSA := normalCDF ((p.T - meanDiff) / combinedSigma) -
    normalCDF ((-p.T - meanDiff) / combinedSigma)
  warProbability * probNoDSA

/-- `computeMinorConflictProbabilityAsymmetric`. -/
def computeMinorConflictProbabilityAsymmetric (p : EqParams)
    (signalingCutoff1 signalingCutoff2 attackCutoff1 attackCutoff2 : EReal) : ℝ :=
  let probSignalRegion1 := PhiShift attackCutoff1 p.w1 p.sigma -
    PhiShift signalingCutoff1 p.w1 p.sigma
  let probSignalRegion2 := PhiShift attackCutoff2 p.w2 p.sigma -
    PhiShift signalingCutoff2 p.w2 p.sigma
  1 - (1 - max 0 probSignalRegion1) * (1 - max 0 probSignalRegion2)

/-- The fields produced by this stage's `computeEquilibrium`. -/
structure EquilibriumPrediction where
  tau : ℝ
  attackProbability : ℝ
  minorConflictProbability : ℝ
  peaceProbability : ℝ
  catastropheProbability : ℝ
  attackCutoff1NoSignal : EReal
  attackCutoff2NoSignal : EReal
  signalingCutoff1 : EReal
  signalingCutoff2 : EReal
  attackCutoffNoSignal : EReal
  signalingCutoff : EReal

/-- `computeEquilibrium(params)` (part_001).  The legacy average fields use
`EReal` arithmetic; the IEEE `NaN` arising in the source when averaging
opposite infinities is not modelled (that combination also requires `τ` both
`≤ 0` and `≥ 1`, which cannot happen). -/
def computeEquilibrium (p : EqParams) : EquilibriumPrediction :=
  let tau := computeTau p.V p.theta
  let attackCutoff1NoSignal := computeAttackCutoff p 0 tau p.w2
  let attackCutoff2NoSignal := computeAttackCutoff p 0 tau p.w1
  let signalingCutoff1 := signalingCutoffE p tau attackCutoff1NoSignal p.w1 p.w2
  let signalingCutoff2 := signalingCutoffE p tau attackCutoff2NoSignal p.w2 p.w1
  let state1NoAttackProb := PhiShift attackCutoff1NoSignal p.w1 p.sigma
  let state2NoAttackProb := PhiShift attackCutoff2NoSignal p.w2 p.sigma
  let peaceProbability := state1NoAttackProb * state2NoAttackProb
  let warProbability := 1 - peaceProbability
  { tau := tau
    attackProbability := warProbability
    minorConflictProbability := computeMinorConflictProbabilityAsymmetric p
      signalingCutoff1 signalingCutoff2 attackCutoff1NoSignal attackCutoff2NoSignal
    peaceProbability := peaceProbability
    catastropheProbability := computeCatastropheProbability p warProbability
    attackCutoff1NoSignal := attackCutoff1NoSignal
    attackCutoff2NoSignal := attackCutoff2NoSignal
    signalingCutoff1 := signalingCutoff1
    signalingCutoff2 := signalingCutoff2
    attackCutoffNoSignal := (attackCutoff1NoSignal + attackCutoff2NoSignal) * ((1/2 : ℝ) : EReal)
    signalingCutoff := (signalingCutoff1 + signalingCutoff2) * ((1/2 : ℝ) : EReal) }

/-- Modelled from the spec: the released equilibrium module additionally
exposes `dsaVictory1Probability` (absent from src; only its type declaration,
display and callers remain).  Spec §4.2 step 4: decisive-victory probabilities
are derived consistently from the same cutoffs — war probability times the
mass of the capability gap (normal, mean `w1 - w2`, scale `σ√2`) at or beyond
`T`. -/
def dsaVictory1Probability (p : EqParams) (warProbability : ℝ) : ℝ :=
  warProbability * (1 - normalCDF ((p.T - (p.w1 - p.w2)) / (p.sigma * Real.sqrt 2)))

/-- Modelled from the spec: companion of `dsaVictory1Probability` for player 2
— war probability times the gap mass at or below `-T`. -/
def dsaVictory2Probability (p : EqParams) (warProbability : ℝ) : ℝ :=
  warProbability * normalCDF ((-p.T - (p.w1 - p.w2)) / (p.sigma * Real.sqrt 2))

/-- The default parameter values of `types.ts`, restricted to the equilibrium
fields (with the shared noise scale of this stage). -/
def defaultEqParams : EqParams :=
  { w1 := 5, w2 := 5, sigma := 1, T := 2, c_m := 1, V := 50, theta := 100 }

/-! ## Investment functions and GTO solver (src/unnamed/part_000, `investment.ts`)

`computeExpectedUtility` weighs the outcome probabilities of the released
equilibrium module, which is absent from src (only its callers, type
declarations and tests remain).  The solver is therefore embedded over an
abstract expected-utility function `eu Ii Ij isState1`; every statement below
holds for each such function, in particular for the one implemented by the
repository. -/

/-- Shape of `computeExpectedUtility(Ii, Ij, baseParams, isState1)` with the
base parameters applied. -/
def EUFun : Type := ℝ → ℝ → Bool → ℝ

/-- The exponent `α = log₁₀ 2` of the capability power law. -/
def invAlpha : ℝ := Real.logb 10 2

/-- The exponent `β = 0.4` of the noise power law. -/
def invBeta : ℝ := 0.4

/-- Scale factor `A = 5 / 10^α`. -/
def invA : ℝ := 5 / (10 : ℝ) ^ invAlpha

/-- Scale factor `B = 1 / 10^β`. -/
def invB : ℝ := 1 / (10 : ℝ) ^ invBeta

/-- `investmentToW(I) = A · max(I, 0.1)^α`. -/
def investmentToW (I : ℝ) : ℝ := invA * max I 0.1 ^ invAlpha

/-- `investmentToSigma(I) = B · max(I, 0.1)^β`. -/
def investmentToSigma (I : ℝ) : ℝ := invB * max I 0.1 ^ invBeta

/-- The four deviation checks of `verifyNE`: for each player, deviating by
`±1` inside `[1, 100]` must not raise expected utility by more than `1e-9`. -/
def NEcheck (eu : EUFun) (I1 I2 : ℝ) : Prop :=
  ((1 ≤ I1 - 1 ∧ I1 - 1 ≤ 100) → eu (I1 - 1) I2 true ≤ eu I1 I2 true + 1e-9) ∧
  ((1 ≤ I1 + 1 ∧ I1 + 1 ≤ 100) → eu (I1 + 1) I2 true ≤ eu I1 I2 true + 1e-9) ∧
  ((1 ≤ I2 - 1 ∧ I2 - 1 ≤ 100) → eu (I2 - 1) I1 false ≤ eu I2 I1 false + 1e-9) ∧
  ((1 ≤ I2 + 1 ∧ I2 + 1 ≤ 100) → eu (I2 + 1) I1 false ≤ eu I2 I1 false + 1e-9)

open Classical in
/-- `verifyNE(I1, I2, baseParams)`. -/
def verifyNE (eu : EUFun) (I1 I2 : ℝ) : Bool :=
  if NEcheck eu I1 I2 then true else false

open Classical in
/-- The integer grid search of `bestResponse`: scan `I = 1..100`, keep the
first maximizer (strict improvement updates).  The source starts from
`bestEU = -Infinity`, so the `I = 1` iteration always installs `(1, f 1)`;
the fold therefore starts from that state. -/
def gridBest (f : ℝ → ℝ) : ℝ :=
  ((List.range 100).foldl
    (fun st k => let I : ℝ := (k : ℝ) + 1; if st.2 < f I then (I, f I) else st)
    ((1 : ℝ), f 1)).1

/-- `(1 + √5)/2`. -/
def goldenPhi : ℝ := (1 + Real.sqrt 5) / 2

open Classical in
/-- The 20-iteration golden-section refinement loop of `bestResponse`
(`eu1 > eu2` shrinks from the right, otherwise from the left). -/
def goldenLoop (f : ℝ → ℝ) : ℕ → ℝ → ℝ → ℝ × ℝ
  | 0, lo, hi => (lo, hi)
  | Nat.succ n, lo, hi =>
      let x1 := hi - (hi - lo) / goldenPhi
      let x2 := lo + (hi - lo) / goldenPhi
      if f x2 < f x1 then goldenLoop f n lo x2 else goldenLoop f n x1 hi

/-- `bestResponse(Ij, baseParams, isState1)`. -/
def bestResponse (eu : EUFun) (Ij : ℝ) (isState1 : Bool) : ℝ :=
  let f : ℝ → ℝ := fun I => eu I Ij isState1
  let bestI := gridBest f
  let lo := max 1 (bestI - 1)
  let hi := min 100 (bestI + 1)
  let r := goldenLoop f 20 lo hi
  (r.1 + r.2) / 2

/-- Mutable state of the damped best-response loop in `solveGTO`.  The
`bestDev` tracker starts at `Infinity`, modelled as `⊤ : EReal`. -/
structure GTOState where
  I1 : ℝ
  I2 : ℝ
  bestI1 : ℝ
  bestI2 : ℝ
  bestDev : EReal
  iterations : ℕ
  convergedIteration : Bool

open Classical in
/-- The damped (Mann) best-response iteration of `solveGTO`: up to the fuel
many iterations, with damping `λ = 0.5`, tolerance `0.1`, best-candidate
tracking by maximal deviation from best response, and early exit. -/
def mannLoop (eu : EUFun) : ℕ → GTOState → GTOState
  | 0, st => st
  | Nat.succ n, st =>
      let br1 := bestResponse eu st.I2 true
      let br2 := bestResponse eu st.I1 false
      let maxDev := max |br1 - st.I1| |br2 - st.I2|
      let best : ℝ × ℝ × EReal :=
        if (maxDev : EReal) < st.bestDev then (st.I1, st.I2, (maxDev : EReal))
        else (st.bestI1, st.bestI2, st.bestDev)
      let newI1 := 0.5 * br1 + (1 - 0.5) * st.I1
      let newI2 := 0.5 * br2 + (1 - 0.5) * st.I2
      if |newI1 - st.I1| ≤ 0.1 ∧ |newI2 - st.I2| ≤ 0.1 then
        { I1 := newI1, I2 := newI2, bestI1 := best.1, bestI2 := best.2.1,
          bestDev := best.2.2, iterations := st.iterations + 1,
          convergedIteration := true }
      else
        mannLoop eu n
          { I1 := newI1, I2 := newI2, bestI1 := best.1, bestI2 := best.2.1,
            bestDev := best.2.2, iterations := st.iterations + 1,
            convergedIteration := false }

/-- Initial loop state from the parameters' investment levels. -/
def initState (pI1 pI2 : ℝ) : GTOState :=
  { I1 := pI1, I2 := pI2, bestI1 := pI1, bestI2 := pI2, bestDev := ⊤,
    iterations := 0, convergedIteration := false }

open Classical in
/-- After the loop: the converged iterate, or otherwise the best tracked
candidate. -/
def rawPair (st : GTOState) : ℝ × ℝ :=
  if st.convergedIteration then (st.I1, st.I2) else (st.bestI1, st.bestI2)

/-- `Math.max(1, Math.min(100, x))`. -/
def clamp100 (x : ℝ) : ℝ := max 1 (min 100 x)

/-- `Math.round(Math.max(1, Math.min(100, x)))`; JavaScript `Math.round` is
`⌊x + 1/2⌋`, Mathlib's `round`. -/
def roundClamped (x : ℝ) : ℤ := round (clamp100 x)

/-- The four adjacent integer roundings tried when the rounded pair fails
verification, in source order: floor/floor, ceil/ceil, floor/ceil,
ceil/floor. -/
def gtoCandidates (x1 x2 : ℝ) : List (ℤ × ℤ) :=
  [(⌊clamp100 x1⌋, ⌊clamp100 x2⌋), (⌈clamp100 x1⌉, ⌈clamp100 x2⌉),
   (⌊clamp100 x1⌋, ⌈clamp100 x2⌉), (⌈clamp100 x1⌉, ⌊clamp100 x2⌋)]

open Classical in
/-- The acceptance test applied to each candidate pair: in `[1,100]²` and
passing `verifyNE`. -/
def candOK (eu : EUFun) (c : ℤ × ℤ) : Bool :=
  if 1 ≤ c.1 ∧ c.1 ≤ 100 ∧ 1 ≤ c.2 ∧ c.2 ≤ 100 then
    verifyNE eu (c.1 : ℝ) (c.2 : ℝ)
  else false

/-- Result record of the Nash solver (`InvestmentResult` of `types.ts`). -/
structure InvestmentResult where
  I1 : ℝ
  I2 : ℝ
  w1 : ℝ
  w2 : ℝ
  sigma1 : ℝ
  sigma2 : ℝ
  eu1 : ℝ
  eu2 : ℝ
  converged : Bool
  iterations : ℕ

open Classical in
/-- The output stage of `solveGTO` applied to the raw pair produced by the
iteration: round into the valid integer domain, run `verifyNE` on the rounded
pair and, if it fails, take the first of the four adjacent integer roundings
that passes; `converged` records whether any verification passed. -/
def gtoSelect (eu : EUFun) (xp : ℝ × ℝ) : ℤ × ℤ × Bool :=
  let rd1 := roundClamped xp.1
  let rd2 := roundClamped xp.2
  if verifyNE eu (rd1 : ℝ) (rd2 : ℝ) = true then (rd1, rd2, true)
  else
    match (gtoCandidates xp.1 xp.2).find? (candOK eu) with
    | some c => (c.1, c.2, true)
    | none => (rd1, rd2, false)

open Classical in
/-- `solveGTO(params)`: 50 damped best-response iterations, rounding of the
selected pair to the valid integer domain, `verifyNE` at the rounded pair,
fallback over the four adjacent roundings, honest `converged` flag. -/
def solveGTO (eu : EUFun) (pI1 pI2 : ℝ) : InvestmentResult :=
  let st := mannLoop eu 50 (initState pI1 pI2)
  let sel := gtoSelect eu (rawPair st)
  { I1 := (sel.1 : ℝ), I2 := (sel.2.1 : ℝ)
    w1 := investmentToW (sel.1 : ℝ), w2 := investmentToW (sel.2.1 : ℝ)
    sigma1 := investmentToSigma (sel.1 : ℝ), sigma2 := investmentToSigma (sel.2.1 : ℝ)
    eu1 := eu (sel.1 : ℝ) (sel.2.1 : ℝ) true, eu2 := eu (sel.2.1 : ℝ) (sel.1 : ℝ) false
    converged := sel.2.2, iterations := st.iterations }

/-- The constant-zero expected-utility function, used to exhibit concrete runs
of the solver. -/
def euZero : EUFun := fun _ _ _ => 0

/-! ## Simulation engine (src/capf-app/src/simulation/engine.ts)

The engine consumes an `EquilibriumPrediction` computed by the released
equilibrium module (absent from src); the prediction is therefore passed in
explicitly, as are the two capability noise draws (`sampleNormal` values),
which the specification requires to be injectable. -/

/-- `ModelParameters` of `types.ts` (current stage, per-player noise). -/
structure EngineParams where
  w1 : ℝ
  w2 : ℝ
  wLinked : Bool
  sigma1 : ℝ
  sigma2 : ℝ
  sigmaLinked : Bool
  T : ℝ
  c_m : ℝ
  V : ℝ
  theta : ℝ
  investmentMode : Bool
  I1 : ℝ
  I2 : ℝ
  investmentLinked : Bool
  W1 : ℝ
  W2 : ℝ
  wealthLinked : Bool

/-- `resolveParams` (`investment.ts`): derive `w`/`σ` from investment levels
when investment mode is on, otherwise the identity. -/
def resolveParams (p : EngineParams) : EngineParams :=
  if p.investmentMode then
    { p with
      w1 := investmentToW p.I1
      w2 := investmentToW p.I2
      sigma1 := investmentToSigma p.I1
      sigma2 := investmentToSigma p.I2
      wLinked := false
      sigmaLinked := false }
  else p

open Classical in
/-- Modelled from the spec: the five-argument `computeAttackCutoff` of the
released equilibrium module (absent from src; `engine.ts` calls it with the
opponent's `w` and `σ`).  Spec §4.2 step 2 with the revealed signal `y_j`
substituted for `0`: `k*(y_j) = w_opp + T + σ_opp · Φ⁻¹(B + (1-B)τ)` with
`B = Φ((y_j - w_opp)/σ_opp)`, and `±Infinity` on the guarded edge cases. -/
def engineAttackCutoff (T yj tau opponentW opponentSigma : ℝ) : EReal :=
  let Bj := normalCDF ((yj - opponentW) / opponentSigma)
  let arg := Bj + (1 - Bj) * tau
  if arg ≤ 0 then ⊥
  else if 1 ≤ arg then ⊤
  else ((opponentW + T + opponentSigma * normalCDFInverse arg : ℝ) : EReal)

/-- `ActorState` fields of `types.ts` used by the engine (the identity and
display name are omitted). -/
structure ActorE where
  budget : ℝ
  privateCapability : ℝ
  minorConflictChoice : ℝ
  revealedLowerBound : ℝ
  majorAttackChoice : Bool
  attackCutoff : EReal
  signalingCutoff : EReal

/-- The equilibrium-prediction fields the engine reads. -/
structure EnginePrediction where
  tau : ℝ
  attackCutoff1NoSignal : EReal
  attackCutoff2NoSignal : EReal
  signalingCutoff1 : EReal
  signalingCutoff2 : EReal

/-- The four outcome categories of a round. -/
inductive RoundOutcomeType where
  | peace
  | dsa_victory_1
  | dsa_victory_2
  | catastrophe
deriving DecidableEq

/-- `RoundOutcome` of `types.ts` (the natural-language `reasoning` record,
pure display data, is omitted). -/
structure RoundOutcomeE where
  round : ℕ
  capabilityDraws : ℝ × ℝ
  minorConflictOccurred : Bool
  signalsSent : ℝ × ℝ
  majorWarOccurred : Bool
  outcome : RoundOutcomeType
  payoffs : ℝ × ℝ

/-- `GameState` fields relevant to the simulation core (UI phase fields are
omitted). -/
structure GameStateE where
  round : ℕ
  parameters : EngineParams
  actors : ActorE × ActorE
  history : List RoundOutcomeE
  equilibriumPrediction : EnginePrediction

/-- `simulateDate1`: each state draws `K_i = w_i + ε_i` from its resolved
parameters; `ε_i` is the injected `sampleNormal(0, σ_i)` value. -/
def simulateDate1 (state : GameStateE) (ε1 ε2 : ℝ) : ActorE × ActorE :=
  let r := resolveParams state.parameters
  ({ state.actors.1 with privateCapability := r.w1 + ε1 },
   { state.actors.2 with privateCapability := r.w2 + ε2 })

open Classical in
/-- `simulateDate2`: signal (reveal `K`) iff `K̂_i ≤ K_i < k*_i(0)`. -/
def simulateDate2 (actors : ActorE × ActorE) (equilibrium : EnginePrediction) :
    ActorE × ActorE :=
  let step : ActorE → EReal → EReal → ActorE := fun a signalingCutoff attackCutoff =>
    let K := a.privateCapability
    let shouldSignal := signalingCutoff ≤ (K : EReal) ∧ (K : EReal) < attackCutoff
    let minorConflictChoice := if shouldSignal then K else 0
    { a with
      minorConflictChoice := minorConflictChoice
      revealedLowerBound := minorConflictChoice
      signalingCutoff := signalingCutoff }
  (step actors.1 equilibrium.signalingCutoff1 equilibrium.attackCutoff1NoSignal,
   step actors.2 equilibrium.signalingCutoff2 equilibrium.attackCutoff2NoSignal)

open Classical in
/-- `simulateDate3`: attack iff `K_i ≥ k*_i(y_j)`, the cutoff recomputed from
the opponent's revealed signal with the opponent's `w` and `σ`. -/
def simulateDate3 (state : GameStateE) (actors : ActorE × ActorE)
    (equilibrium : EnginePrediction) : ActorE × ActorE :=
  let r := resolveParams state.parameters
  let kStar1 := engineAttackCutoff r.T actors.2.revealedLowerBound equilibrium.tau r.w2 r.sigma2
  let kStar2 := engineAttackCutoff r.T actors.1.revealedLowerBound equilibrium.tau r.w1 r.sigma1
  ({ actors.1 with
      attackCutoff := kStar1
      majorAttackChoice := decide (kStar1 ≤ (actors.1.privateCapability : EReal)) },
   { actors.2 with
      attackCutoff := kStar2
      majorAttackChoice := decide (kStar2 ≤ (actors.2.privateCapability : EReal)) })

open Classical in
/-- `determineOutcome(actors, parameters)`: outcome category and payoffs.
Wealth endowments enter every payoff, investment cost is charged in
investment mode, a decisive loser is zeroed with no further deductions, the
blended minor-conflict cost (`y1+y2 || 1` guarding the zero denominator) is
charged when a signal occurred except to a decisive loser, and both payoffs
are floored at `0` at the end. -/
def determineOutcome (actors : ActorE × ActorE) (p : EngineParams) :
    RoundOutcomeType × (ℝ × ℝ) :=
  let K1 := actors.1.privateCapability
  let K2 := actors.2.privateCapability
  let Z1 := actors.1.majorAttackChoice
  let Z2 := actors.2.majorAttackChoice
  let I1cost := if p.investmentMode then p.I1 else 0
  let I2cost := if p.investmentMode then p.I2 else 0
  let base : RoundOutcomeType × (ℝ × ℝ) :=
    if Z1 = false ∧ Z2 = false then
      (RoundOutcomeType.peace, (p.W1 - I1cost + p.V / 2, p.W2 - I2cost + p.V / 2))
    else if K2 + p.T ≤ K1 then
      (RoundOutcomeType.dsa_victory_1, (p.W1 - I1cost + p.V, 0))
    else if K1 + p.T ≤ K2 then
      (RoundOutcomeType.dsa_victory_2, (0, p.W2 - I2cost + p.V))
    else
      (RoundOutcomeType.catastrophe,
        (max 0 (p.W1 - I1cost - p.theta), max 0 (p.W2 - I2cost - p.theta)))
  let y1 := actors.1.minorConflictChoice
  let y2 := actors.2.minorConflictChoice
  let afterMinor : ℝ × ℝ :=
    if 0 < y1 ∨ 0 < y2 then
      let denom := if y1 + y2 = 0 then 1 else y1 + y2
      let minorCost := p.c_m + y1 * y2 / denom
      ((if base.1 = RoundOutcomeType.dsa_victory_2 then base.2.1 else base.2.1 - minorCost),
       (if base.1 = RoundOutcomeType.dsa_victory_1 then base.2.2 else base.2.2 - minorCost))
    else base.2
  (base.1, (max 0 afterMinor.1, max 0 afterMinor.2))

open Classical in
/-- `simulateRound(state)` with the equilibrium prediction and the two
capability draws injected. -/
def simulateRound (state : GameStateE) (equilibrium : EnginePrediction)
    (ε1 ε2 : ℝ) : RoundOutcomeE :=
  let a1 := simulateDate1 state ε1 ε2
  let a2 := simulateDate2 a1 equilibrium
  let a3 := simulateDate3 state a2 equilibrium
  let r := determineOutcome a3 state.parameters
  { round := state.round
    capabilityDraws := (a3.1.privateCapability, a3.2.privateCapability)
    minorConflictOccurred :=
      decide (0 < a3.1.minorConflictChoice) || decide (0 < a3.2.minorConflictChoice)
    signalsSent := (a3.1.minorConflictChoice, a3.2.minorConflictChoice)
    majorWarOccurred := a3.1.majorAttackChoice || a3.2.majorAttackChoice
    outcome := r.1
    payoffs := r.2 }

/-- `advanceRound(state)`: in the source, `computeEquilibrium(state.parameters)`
is evaluated once inside `simulateRound` and once for the new state's
prediction field; `equilibrium` stands for that value. -/
def advanceRound (state : GameStateE) (equilibrium : EnginePrediction)
    (ε1 ε2 : ℝ) : GameStateE :=
  { state with
      round := state.round + 1
      history := state.history ++ [simulateRound state equilibrium ε1 ε2]
      equilibriumPrediction := equilibrium }

/-- The default parameter values of `types.ts`. -/
def defaultEngineParams : EngineParams :=
  { w1 := 5, w2 := 5, wLinked := true, sigma1 := 1, sigma2 := 1,
    sigmaLinked := true, T := 2, c_m := 1, V := 50, theta := 100,
    investmentMode := false, I1 := 10, I2 := 10, investmentLinked := true,
    W1 := 50, W2 := 50, wealthLinked := true }

/-- A silent, non-attacking actor used for concrete evaluations. -/
def silentActor : ActorE :=
  { budget := 5, privateCapability := 5, minorConflictChoice := 0,
    revealedLowerBound := 0, majorAttackChoice := false,
    attackCutoff := ((0 : ℝ) : EReal), signalingCutoff := ((0 : ℝ) : EReal) }

end

/-! ## Theorems -/

/-! ### Basic facts about the coded normal CDF -/

theorem Qerf_zero : Qerf 0 = 0 := by
  simp [Qerf]

theorem Qerf_one_lt_one : Qerf 1 < 1 := by
  norm_num [Qerf, aAS1, aAS2, aAS3, aAS4, aAS5]

theorem QerfDeriv_nonneg (t : ℝ) : 0 ≤ QerfDeriv t := by
  have h := sq_nonneg (2.3037 * t ^ 2 - 1.26158 * t + 0.08436)
  have h2 := sq_nonneg (1.51128 * t - 0.11783)
  unfold QerfDeriv aAS1 aAS2 aAS3 aAS4 aAS5
  nlinarith [h, h2]

theorem Qerf_hasDerivAt (t : ℝ) : HasDerivAt Qerf (QerfDeriv t) t := by
  have hQ : Qerf = fun x : ℝ =>
      aAS5 * x ^ 5 + aAS4 * x ^ 4 + aAS3 * x ^ 3 + aAS2 * x ^ 2 + aAS1 * x := by
    funext x; unfold Qerf; ring
  rw [hQ]
  have h5 := (hasDerivAt_pow 5 t).const_mul aAS5
  have h4 := (hasDerivAt_pow 4 t).const_mul aAS4
  have h3 := (hasDerivAt_pow 3 t).const_mul aAS3
  have h2 := (hasDerivAt_pow 2 t).const_mul aAS2
  have h1 := (hasDerivAt_id t).const_mul aAS1
  have := (((h5.add h4).add h3).add h2).add h1
  convert this using 1
  unfold QerfDeriv
  push_cast
  ring

/-- The Abramowitz–Stegun quintic is monotone. -/
theorem Qerf_mono : Monotone Qerf := by
  have : ∀ t : ℝ, 0 ≤ deriv Qerf t := by
    intro t
    rw [(Qerf_hasDerivAt t).deriv]
    exact QerfDeriv_nonneg t
  exact monotone_of_deriv_nonneg (fun t => (Qerf_hasDerivAt t).differentiableAt) this

theorem tfac_pos {z : ℝ} (hz : 0 ≤ z) : 0 < 1 / (1 + pAS * z) := by
  have : (0:ℝ) < 1 + pAS * z := by
    have : (0:ℝ) ≤ pAS * z := mul_nonneg (by norm_num [pAS]) hz
    linarith
  positivity

theorem tfac_le_one {z : ℝ} (hz : 0 ≤ z) : 1 / (1 + pAS * z) ≤ 1 := by
  have h : (0:ℝ) ≤ pAS * z := mul_nonneg (by norm_num [pAS]) hz
  rw [div_le_one (by linarith)]
  linarith

theorem tfac_anti {z₁ z₂ : ℝ} (h1 : 0 ≤ z₁) (h12 : z₁ ≤ z₂) :
    1 / (1 + pAS * z₂) ≤ 1 / (1 + pAS * z₁) := by
  have hp : (0:ℝ) < pAS := by norm_num [pAS]
  have ha : (0:ℝ) < 1 + pAS * z₁ := by nlinarith
  have hb : 1 + pAS * z₁ ≤ 1 + pAS * z₂ := by nlinarith
  exact one_div_le_one_div_of_le ha hb

theorem Gfun_nonneg {z : ℝ} (hz : 0 ≤ z) : 0 ≤ Gfun z := by
  unfold Gfun
  have h0 : 0 ≤ Qerf (1 / (1 + pAS * z)) := by
    have := Qerf_mono (le_of_lt (tfac_pos hz))
    simpa [Qerf_zero] using this
  exact mul_nonneg h0 (Real.exp_pos _).le

theorem Gfun_le {z : ℝ} (hz : 0 ≤ z) : Gfun z ≤ Qerf 1 := by
  unfold Gfun
  have h0 : 0 ≤ Qerf (1 / (1 + pAS * z)) := by
    have := Qerf_mono (le_of_lt (tfac_pos hz))
    simpa [Qerf_zero] using this
  have h1 : Qerf (1 / (1 + pAS * z)) ≤ Qerf 1 := Qerf_mono (tfac_le_one hz)
  have he : Real.exp (-(z * z)) ≤ 1 := by
    rw [Real.exp_le_one_iff]
    nlinarith
  calc Qerf (1 / (1 + pAS * z)) * Real.exp (-(z * z))
      ≤ Qerf (1 / (1 + pAS * z)) * 1 := by
        exact mul_le_mul_of_nonneg_left he h0
    _ ≤ Qerf 1 := by simpa using h1

theorem Gfun_anti {z₁ z₂ : ℝ} (h1 : 0 ≤ z₁) (h12 : z₁ ≤ z₂) :
    Gfun z₂ ≤ Gfun z₁ := by
  unfold Gfun
  have h2 : (0:ℝ) ≤ z₂ := le_trans h1 h12
  have hq : Qerf (1 / (1 + pAS * z₂)) ≤ Qerf (1 / (1 + pAS * z₁)) :=
    Qerf_mono (tfac_anti h1 h12)
  have hq2 : 0 ≤ Qerf (1 / (1 + pAS * z₂)) := by
    have := Qerf_mono (le_of_lt (tfac_pos h2))
    simpa [Qerf_zero] using this
  have he : Real.exp (-(z₂ * z₂)) ≤ Real.exp (-(z₁ * z₁)) := by
    rw [Real.exp_le_exp]
    nlinarith
  exact mul_le_mul hq he (Real.exp_pos _).le
    (le_trans hq2 hq)

theorem normalCDF_of_nonneg {x : ℝ} (hx : 0 ≤ x) :
    normalCDF x = 1 - Gfun (x / Real.sqrt 2) / 2 := by
  simp only [normalCDF, Gfun]
  rw [if_neg (not_lt.2 hx), abs_of_nonneg hx]
  ring

theorem normalCDF_of_neg {x : ℝ} (hx : x < 0) :
    normalCDF x = Gfun (-x / Real.sqrt 2) / 2 := by
  simp only [normalCDF, Gfun]
  rw [if_pos hx, abs_of_neg hx]
  ring

theorem normalCDF_nonneg (x : ℝ) : 0 ≤ normalCDF x := by
  rcases lt_or_le x 0 with hx | hx
  · rw [normalCDF_of_neg hx]
    have h : 0 ≤ -x / Real.sqrt 2 := div_nonneg (by linarith) (Real.sqrt_nonneg 2)
    linarith [Gfun_nonneg h]
  · rw [normalCDF_of_nonneg hx]
    have h : 0 ≤ x / Real.sqrt 2 := by positivity
    have := Gfun_le h
    have h1 : Qerf 1 < 1 := Qerf_one_lt_one
    linarith

theorem normalCDF_le_one (x : ℝ) : normalCDF x ≤ 1 := by
  rcases lt_or_le x 0 with hx | hx
  · rw [normalCDF_of_neg hx]
    have h : 0 ≤ -x / Real.sqrt 2 := div_nonneg (by linarith) (Real.sqrt_nonneg 2)
    have := Gfun_le h
    have h1 : Qerf 1 < 1 := Qerf_one_lt_one
    linarith
  · rw [normalCDF_of_nonneg hx]
    have h : 0 ≤ x / Real.sqrt 2 := by positivity
    linarith [Gfun_nonneg h]

theorem normalCDF_mono : Monotone normalCDF := by
  intro a b hab
  have hs : (0:ℝ) < Real.sqrt 2 := by positivity
  rcases lt_or_le a 0 with ha | ha
  · rcases lt_or_le b 0 with hb | hb
    · rw [normalCDF_of_neg ha, normalCDF_of_neg hb]
      have h1 : 0 ≤ -b / Real.sqrt 2 := div_nonneg (by linarith) (Real.sqrt_nonneg 2)
      have h2 : -b / Real.sqrt 2 ≤ -a / Real.sqrt 2 :=
        (div_le_div_right hs).2 (by linarith)
      linarith [Gfun_anti h1 h2]
    · rw [normalCDF_of_neg ha, normalCDF_of_nonneg hb]
      have h1 : 0 ≤ -a / Real.sqrt 2 := div_nonneg (by linarith) (Real.sqrt_nonneg 2)
      have h2 : 0 ≤ b / Real.sqrt 2 := by positivity
      have g1 := Gfun_le h1
      have g2 := Gfun_le h2
      have h3 : Qerf 1 < 1 := Qerf_one_lt_one
      linarith
  · have hb : (0:ℝ) ≤ b := le_trans ha hab
    rw [normalCDF_of_nonneg ha, normalCDF_of_nonneg hb]
    have h1 : 0 ≤ a / Real.sqrt 2 := by positivity
    have h2 : a / Real.sqrt 2 ≤ b / Real.sqrt 2 :=
      (div_le_div_right hs).2 hab
    linarith [Gfun_anti h1 h2]

/-- The coded CDF at `0`: `1 - Qerf 1 / 2`, i.e. `0.5000000005`. -/
theorem normalCDF_zero : normalCDF 0 = 0.5000000005 := by
  have h : normalCDF 0 = 1 - Gfun (0 / Real.sqrt 2) / 2 := normalCDF_of_nonneg le_rfl
  rw [h, zero_div]
  unfold Gfun
  norm_num [Qerf, pAS, aAS1, aAS2, aAS3, aAS4, aAS5, Real.exp_zero]

/-- `PhiShift` always lands in `[0, 1]`. -/
theorem PhiShift_mem (k : EReal) (w sigma : ℝ) :
    0 ≤ PhiShift k w sigma ∧ PhiShift k w sigma ≤ 1 := by
  unfold PhiShift
  split
  · norm_num
  · split
    · norm_num
    · exact ⟨normalCDF_nonneg _, normalCDF_le_one _⟩

/-! ### Claim C7: the attack threshold `computeTau` -/

/-- C7 (amended: for strictly positive `V` and `θ`): `computeTau(V, θ)` equals
`(V/2 + θ)/(V + θ)`; `computeTau(50, 100)` is exactly `5/6 ≈ 0.8333`; for all
`V, θ > 0` the value lies strictly between `0.5` and `1`, is strictly
increasing in `θ` for fixed `V`, and strictly decreasing in `V` for fixed
`θ`.  (At the boundary `θ = 0` the value is exactly `1/2` and at `V = 0` it is
exactly `1` and constant, so the properties fail for merely nonnegative
parameters; see the counterexample.) -/
theorem computeTau_properties :
    (∀ V theta : ℝ, computeTau V theta = (V / 2 + theta) / (V + theta)) ∧
    computeTau 50 100 = 5 / 6 ∧
    (∀ V theta : ℝ, 0 < V → 0 < theta →
      1 / 2 < computeTau V theta ∧ computeTau V theta < 1) ∧
    (∀ V t1 t2 : ℝ, 0 < V → 0 < t1 → t1 < t2 →
      computeTau V t1 < computeTau V t2) ∧
    (∀ V1 V2 theta : ℝ, 0 < theta → 0 < V1 → V1 < V2 →
      computeTau V2 theta < computeTau V1 theta) := by
  refine ⟨fun V theta => rfl, by norm_num [computeTau], ?_, ?_, ?_⟩
  · intro V theta hV hθ
    unfold computeTau
    constructor
    · rw [lt_div_iff (by linarith)]
      linarith
    · rw [div_lt_one (by linarith)]
      linarith
  · intro V t1 t2 hV h1 h12
    unfold computeTau
    rw [div_lt_div_iff (by linarith) (by linarith)]
    nlinarith
  · intro V1 V2 theta hθ h1 h12
    unfold computeTau
    rw [div_lt_div_iff (by linarith) (by linarith)]
    nlinarith

/-- C7 counterexample: with only `V, θ ≥ 0` (the stated invariant), the
claimed strict bounds and strict monotonicity fail: at `V = 50, θ = 0` the
threshold is exactly `1/2`; at `V = 0, θ = 100` it is exactly `1` and does not
increase in `θ`. -/
theorem computeTau_boundary_cex :
    (0:ℝ) ≤ 50 ∧ (0:ℝ) ≤ 0 ∧ computeTau 50 0 = 1 / 2 ∧
      ¬ (1 / 2 < computeTau 50 0) ∧
    (0:ℝ) ≤ 0 ∧ (0:ℝ) ≤ 100 ∧ computeTau 0 100 = 1 ∧
      ¬ (computeTau 0 100 < 1) ∧ ¬ (computeTau 0 100 < computeTau 0 200) := by
  norm_num [computeTau]

/-- Witness for `computeTau_properties` at `V = 50` or `100`, `θ = 100` or
`200`. -/
theorem computeTau_properties_witness :
    (0:ℝ) < 50 ∧ (0:ℝ) < 100 ∧
    (1 / 2 < computeTau 50 100 ∧ computeTau 50 100 < 1) ∧
    computeTau 50 100 < computeTau 50 200 ∧
    computeTau 100 100 < computeTau 50 100 :=
  ⟨by norm_num, by norm_num,
   computeTau_properties.2.2.1 50 100 (by norm_num) (by norm_num),
   computeTau_properties.2.2.2.1 50 100 200 (by norm_num) (by norm_num) (by norm_num),
   computeTau_properties.2.2.2.2 50 100 100 (by norm_num) (by norm_num) (by norm_num)⟩

/-! ### Claim C5: catastrophe probability structure -/

/-- C5: the catastrophe probability of `computeEquilibrium` equals the war
probability (one minus the peace probability) times the mass that the coded
normal CDF assigns to the open gap interval `(-T, T)` for a gap with mean
`w1 - w2` and variance `σ² + σ²` (this stage's shared noise scale: both
players' variances equal `σ²`). -/
theorem catastropheProbability_formula (p : EqParams) (hσ : 0 < p.sigma) :
    (computeEquilibrium p).catastropheProbability =
      (1 - (computeEquilibrium p).peaceProbability) *
        (normalCDF ((p.T - (p.w1 - p.w2)) / Real.sqrt (p.sigma ^ 2 + p.sigma ^ 2)) -
         normalCDF ((-p.T - (p.w1 - p.w2)) / Real.sqrt (p.sigma ^ 2 + p.sigma ^ 2))) := by
  have hs : Real.sqrt (p.sigma ^ 2 + p.sigma ^ 2) = p.sigma * Real.sqrt 2 := by
    rw [show p.sigma ^ 2 + p.sigma ^ 2 = p.sigma ^ 2 * 2 by ring,
      Real.sqrt_mul (sq_nonneg _), Real.sqrt_sq hσ.le]
  rw [hs]
  rfl

/-- Witness for `catastropheProbability_formula` at the default parameters. -/
theorem catastropheProbability_formula_witness :
    0 < defaultEqParams.sigma ∧
    (computeEquilibrium defaultEqParams).catastropheProbability =
      (1 - (computeEquilibrium defaultEqParams).peaceProbability) *
        (normalCDF ((defaultEqParams.T - (defaultEqParams.w1 - defaultEqParams.w2)) /
            Real.sqrt (defaultEqParams.sigma ^ 2 + defaultEqParams.sigma ^ 2)) -
         normalCDF ((-defaultEqParams.T - (defaultEqParams.w1 - defaultEqParams.w2)) /
            Real.sqrt (defaultEqParams.sigma ^ 2 + defaultEqParams.sigma ^ 2))) :=
  ⟨by norm_num [defaultEqParams],
   catastropheProbability_formula defaultEqParams (by norm_num [defaultEqParams])⟩

/-! ### Claim C4: the no-signal attack cutoff -/

/-- C4: for any parameters and threshold `τ`, with `B = Φ(-w_opp/σ)` computed
by `computeB` from the opponent's base capability and the (shared) noise
scale, the no-signal cutoff is `-∞` when `B + (1-B)τ ≤ 0`, `+∞` when
`B + (1-B)τ ≥ 1`, and `w_opp + T + σ·Φ⁻¹(B + (1-B)τ)` otherwise. -/
theorem attackCutoff_formula (p : EqParams) (tau w_opp : ℝ) :
    computeB 0 w_opp p.sigma = normalCDF (-(w_opp / p.sigma)) ∧
    (computeB 0 w_opp p.sigma + (1 - computeB 0 w_opp p.sigma) * tau ≤ 0 →
      computeAttackCutoff p 0 tau w_opp = ⊥) ∧
    (1 ≤ computeB 0 w_opp p.sigma + (1 - computeB 0 w_opp p.sigma) * tau →
      computeAttackCutoff p 0 tau w_opp = ⊤) ∧
    (0 < computeB 0 w_opp p.sigma + (1 - computeB 0 w_opp p.sigma) * tau →
     computeB 0 w_opp p.sigma + (1 - computeB 0 w_opp p.sigma) * tau < 1 →
      computeAttackCutoff p 0 tau w_opp =
        ((w_opp + p.T + p.sigma * normalCDFInverse
            (computeB 0 w_opp p.sigma + (1 - computeB 0 w_opp p.sigma) * tau) : ℝ) :
          EReal)) := by
  refine ⟨?_, ?_, ?_, ?_⟩
  · unfold computeB
    rw [zero_sub, neg_div]
  · intro h
    unfold computeAttackCutoff
    rw [if_pos h]
  · intro h
    unfold computeAttackCutoff
    rw [if_neg (by linarith), if_pos h]
  · intro h0 h1
    unfold computeAttackCutoff
    rw [if_neg (by linarith), if_neg (by linarith)]

/-- Witness for `attackCutoff_formula`: at the default parameters with
`w_opp = 0` and `τ = 0.5` the argument is `0.75000000025 ∈ (0, 1)`, so the
finite branch applies. -/
theorem attackCutoff_formula_witness :
    0 < computeB 0 0 defaultEqParams.sigma +
        (1 - computeB 0 0 defaultEqParams.sigma) * 0.5 ∧
    computeB 0 0 defaultEqParams.sigma +
        (1 - computeB 0 0 defaultEqParams.sigma) * 0.5 < 1 ∧
    computeAttackCutoff defaultEqParams 0 0.5 0 =
      ((0 + defaultEqParams.T + defaultEqParams.sigma * normalCDFInverse
          (computeB 0 0 defaultEqParams.sigma +
            (1 - computeB 0 0 defaultEqParams.sigma) * 0.5) : ℝ) : EReal) := by
  have hB : computeB 0 0 defaultEqParams.sigma = 0.5000000005 := by
    unfold computeB defaultEqParams
    norm_num [normalCDF_zero]
  have h0 : 0 < computeB 0 0 defaultEqParams.sigma +
      (1 - computeB 0 0 defaultEqParams.sigma) * 0.5 := by rw [hB]; norm_num
  have h1 : computeB 0 0 defaultEqParams.sigma +
      (1 - computeB 0 0 defaultEqParams.sigma) * 0.5 < 1 := by rw [hB]; norm_num
  exact ⟨h0, h1, (attackCutoff_formula defaultEqParams 0.5 0).2.2.2 h0 h1⟩

/-! ### Claim C2: outcome probabilities sum to one and lie in `[0, 1]` -/

/-- C2: for valid parameters (strictly positive noise scale, nonnegative `V`,
`θ` and gap threshold `T`), the peace, decisive-victory and catastrophe
probabilities all lie in `[0, 1]` and sum exactly to `1`.  The decisive-victory
probabilities are the spec-modelled `dsaVictory1Probability` /
`dsaVictory2Probability` evaluated at the module's war probability. -/
theorem equilibrium_probabilities (p : EqParams) (hσ : 0 < p.sigma)
    (hT : 0 ≤ p.T) (hV : 0 ≤ p.V) (hθ : 0 ≤ p.theta) :
    ((computeEquilibrium p).peaceProbability +
      dsaVictory1Probability p (computeEquilibrium p).attackProbability +
      dsaVictory2Probability p (computeEquilibrium p).attackProbability +
      (computeEquilibrium p).catastropheProbability = 1) ∧
    (0 ≤ (computeEquilibrium p).peaceProbability ∧
      (computeEquilibrium p).peaceProbability ≤ 1) ∧
    (0 ≤ dsaVictory1Probability p (computeEquilibrium p).attackProbability ∧
      dsaVictory1Probability p (computeEquilibrium p).attackProbability ≤ 1) ∧
    (0 ≤ dsaVictory2Probability p (computeEquilibrium p).attackProbability ∧
      dsaVictory2Probability p (computeEquilibrium p).attackProbability ≤ 1) ∧
    (0 ≤ (computeEquilibrium p).catastropheProbability ∧
      (computeEquilibrium p).catastropheProbability ≤ 1) := by
  have hpe : (computeEquilibrium p).peaceProbability =
      PhiShift (computeAttackCutoff p 0 (computeTau p.V p.theta) p.w2) p.w1 p.sigma *
      PhiShift (computeAttackCutoff p 0 (computeTau p.V p.theta) p.w1) p.w2 p.sigma := rfl
  have hat : (computeEquilibrium p).attackProbability =
      1 - (computeEquilibrium p).peaceProbability := rfl
  have hca : (computeEquilibrium p).catastropheProbability =
      computeCatastropheProbability p (1 - (computeEquilibrium p).peaceProbability) := rfl
  set u : ℝ := (p.T - (p.w1 - p.w2)) / (p.sigma * Real.sqrt 2) with hu
  set v : ℝ := (-p.T - (p.w1 - p.w2)) / (p.sigma * Real.sqrt 2) with hv
  have hden : 0 < p.sigma * Real.sqrt 2 :=
    mul_pos hσ (Real.sqrt_pos.2 (by norm_num))
  have hvu : normalCDF v ≤ normalCDF u := by
    apply normalCDF_mono
    rw [hu, hv]
    exact (div_le_div_right hden).2 (by linarith)
  have hum : 0 ≤ normalCDF u ∧ normalCDF u ≤ 1 := ⟨normalCDF_nonneg u, normalCDF_le_one u⟩
  have hvm : 0 ≤ normalCDF v ∧ normalCDF v ≤ 1 := ⟨normalCDF_nonneg v, normalCDF_le_one v⟩
  have h1m := PhiShift_mem (computeAttackCutoff p 0 (computeTau p.V p.theta) p.w2) p.w1 p.sigma
  have h2m := PhiShift_mem (computeAttackCutoff p 0 (computeTau p.V p.theta) p.w1) p.w2 p.sigma
  have hpeace : 0 ≤ (computeEquilibrium p).peaceProbability ∧
      (computeEquilibrium p).peaceProbability ≤ 1 := by
    rw [hpe]
    exact ⟨mul_nonneg h1m.1 h2m.1, mul_le_one₀ h1m.2 h2m.1 h2m.2⟩
  have hwar : 0 ≤ 1 - (computeEquilibrium p).peaceProbability ∧
      1 - (computeEquilibrium p).peaceProbability ≤ 1 := by
    constructor <;> linarith [hpeace.1, hpeace.2]
  have hd1 : dsaVictory1Probability p (computeEquilibrium p).attackProbability =
      (1 - (computeEquilibrium p).peaceProbability) * (1 - normalCDF u) := by
    rw [hat]; rfl
  have hd2 : dsaVictory2Probability p (computeEquilibrium p).attackProbability =
      (1 - (computeEquilibrium p).peaceProbability) * normalCDF v := by
    rw [hat]; rfl
  have hcat : (computeEquilibrium p).catastropheProbability =
      (1 - (computeEquilibrium p).peaceProbability) * (normalCDF u - normalCDF v) := by
    rw [hca]; rfl
  refine ⟨?_, hpeace, ?_, ?_, ?_⟩
  · rw [hd1, hd2, hcat]
    ring
  · rw [hd1]
    constructor
    · exact mul_nonneg hwar.1 (by linarith [hum.2])
    · exact mul_le_one₀ hwar.2 (by linarith [hum.2]) (by linarith [hum.1])
  · rw [hd2]
    constructor
    · exact mul_nonneg hwar.1 hvm.1
    · exact mul_le_one₀ hwar.2 hvm.1 hvm.2
  · rw [hcat]
    constructor
    · exact mul_nonneg hwar.1 (by linarith)
    · exact mul_le_one₀ hwar.2 (by linarith) (by linarith [hum.2, hvm.1])

/-- Witness for `equilibrium_probabilities` at the default parameters. -/
theorem equilibrium_probabilities_witness :
    0 < defaultEqParams.sigma ∧ 0 ≤ defaultEqParams.T ∧ 0 ≤ defaultEqParams.V ∧
    0 ≤ defaultEqParams.theta ∧
    (computeEquilibrium defaultEqParams).peaceProbability +
      dsaVictory1Probability defaultEqParams
        (computeEquilibrium defaultEqParams).attackProbability +
      dsaVictory2Probability defaultEqParams
        (computeEquilibrium defaultEqParams).attackProbability +
      (computeEquilibrium defaultEqParams).catastropheProbability = 1 :=
  ⟨by norm_num [defaultEqParams], by norm_num [defaultEqParams],
   by norm_num [defaultEqParams], by norm_num [defaultEqParams],
   (equilibrium_probabilities defaultEqParams (by norm_num [defaultEqParams])
      (by norm_num [defaultEqParams]) (by norm_num [defaultEqParams])
      (by norm_num [defaultEqParams])).1⟩

/-! ### Claim C8: round simulation safety -/

/-- Every `RoundOutcomeType` value is one of the four defined categories. -/
theorem roundOutcomeType_cases (oc : RoundOutcomeType) :
    oc = RoundOutcomeType.peace ∨ oc = RoundOutcomeType.dsa_victory_1 ∨
    oc = RoundOutcomeType.dsa_victory_2 ∨ oc = RoundOutcomeType.catastrophe := by
  cases oc
  · exact Or.inl rfl
  · exact Or.inr (Or.inl rfl)
  · exact Or.inr (Or.inr (Or.inl rfl))
  · exact Or.inr (Or.inr (Or.inr rfl))

/-- Both payoffs computed by `determineOutcome` are floored at zero. -/
theorem determineOutcome_payoffs_nonneg (actors : ActorE × ActorE) (p : EngineParams) :
    0 ≤ (determineOutcome actors p).2.1 ∧ 0 ≤ (determineOutcome actors p).2.2 := by
  constructor
  · exact le_max_left 0 _
  · exact le_max_left 0 _

/-- C8: for every game state, equilibrium prediction and pair of capability
draws, the simulated round has an outcome that is exactly one of the four
defined categories and payoffs that are both `≥ 0`; the computation is a total
function (no exceptions). -/
theorem simulateRound_safe (state : GameStateE) (equilibrium : EnginePrediction)
    (ε1 ε2 : ℝ) :
    (0 ≤ (simulateRound state equilibrium ε1 ε2).payoffs.1 ∧
     0 ≤ (simulateRound state equilibrium ε1 ε2).payoffs.2) ∧
    ((simulateRound state equilibrium ε1 ε2).outcome = RoundOutcomeType.peace ∨
     (simulateRound state equilibrium ε1 ε2).outcome = RoundOutcomeType.dsa_victory_1 ∨
     (simulateRound state equilibrium ε1 ε2).outcome = RoundOutcomeType.dsa_victory_2 ∨
     (simulateRound state equilibrium ε1 ε2).outcome = RoundOutcomeType.catastrophe) :=
  ⟨determineOutcome_payoffs_nonneg _ _, roundOutcomeType_cases _⟩

/-! ### Claim C9: advancing a round only appends to history -/

/-- C9: `advanceRound` appends exactly one new `RoundOutcome` at the end of
the history, leaves every previously recorded entry unchanged (the old history
is the prefix of the new one), increments the round counter by one, and leaves
the parameters untouched.  (In this embedding all values are immutable, so the
input state itself cannot be mutated.) -/
theorem advanceRound_frame (state : GameStateE) (equilibrium : EnginePrediction)
    (ε1 ε2 : ℝ) :
    (advanceRound state equilibrium ε1 ε2).history =
      state.history ++ [simulateRound state equilibrium ε1 ε2] ∧
    (advanceRound state equilibrium ε1 ε2).history.take state.history.length =
      state.history ∧
    (advanceRound state equilibrium ε1 ε2).history.length =
      state.history.length + 1 ∧
    (advanceRound state equilibrium ε1 ε2).round = state.round + 1 ∧
    (advanceRound state equilibrium ε1 ε2).parameters = state.parameters := by
  refine ⟨rfl, ?_, ?_, rfl, rfl⟩
  · exact List.take_left _ _
  · simp [advanceRound]

/-! ### Claim C10: minor-conflict cost is charged only when a signal occurred -/

/-- C10: the blended minor-conflict cost is subtracted only when at least one
of the two signals is strictly positive.  Whenever neither signal is strictly
positive (in particular when both players stayed silent, `y1 = y2 = 0`), no
minor-conflict cost is charged in any branch: each of the four rounds — silent
peace, silent decisive victory of either player, and silent catastrophe — pays
exactly the zero-floored base payoff of its branch, with no `c_m` deduction.
In particular a silent peace round pays each player wealth endowment minus
investment cost plus `V/2`, the zero floor aside. -/
theorem determineOutcome_silent_no_minor_cost (p : EngineParams) (a1 a2 : ActorE)
    (h1 : ¬ 0 < a1.minorConflictChoice) (h2 : ¬ 0 < a2.minorConflictChoice) :
    ((a1.majorAttackChoice = false ∧ a2.majorAttackChoice = false) →
      determineOutcome (a1, a2) p =
        (RoundOutcomeType.peace,
          (max 0 (p.W1 - (if p.investmentMode then p.I1 else 0) + p.V / 2),
           max 0 (p.W2 - (if p.investmentMode then p.I2 else 0) + p.V / 2)))) ∧
    (¬ (a1.majorAttackChoice = false ∧ a2.majorAttackChoice = false) →
      (a2.privateCapability + p.T ≤ a1.privateCapability →
        determineOutcome (a1, a2) p =
          (RoundOutcomeType.dsa_victory_1,
            (max 0 (p.W1 - (if p.investmentMode then p.I1 else 0) + p.V), 0))) ∧
      (¬ (a2.privateCapability + p.T ≤ a1.privateCapability) →
        (a1.privateCapability + p.T ≤ a2.privateCapability →
          determineOutcome (a1, a2) p =
            (RoundOutcomeType.dsa_victory_2,
              (0, max 0 (p.W2 - (if p.investmentMode then p.I2 else 0) + p.V)))) ∧
        (¬ (a1.privateCapability + p.T ≤ a2.privateCapability) →
          determineOutcome (a1, a2) p =
            (RoundOutcomeType.catastrophe,
              (max 0 (p.W1 - (if p.investmentMode then p.I1 else 0) - p.theta),
               max 0 (p.W2 - (if p.investmentMode then p.I2 else 0) - p.theta))))))
    := by
  have hy : ¬ (0 < a1.minorConflictChoice ∨ 0 < a2.minorConflictChoice) := by
    tauto
  constructor
  · intro hz
    unfold determineOutcome
    simp only [hz.1, hz.2, hy]
    norm_num
  · intro hnz
    refine ⟨?_, ?_⟩
    · intro hdsa1
      unfold determineOutcome
      simp only [hnz, hy, hdsa1]
      norm_num
    · intro hnd1
      refine ⟨?_, ?_⟩
      · intro hdsa2
        unfold determineOutcome
        simp only [hnz, hy, hnd1, hdsa2]
        norm_num
      · intro hnd2
        unfold determineOutcome
        simp only [hnz, hy, hnd1, hnd2]
        norm_num

/-- Witness for `determineOutcome_silent_no_minor_cost` with two silent,
non-attacking actors at the default parameters: the silent-peace branch of the
theorem applies and gives the exact `W - I_cost + V/2` payoffs. -/
theorem determineOutcome_silent_witness :
    ¬ 0 < silentActor.minorConflictChoice ∧
    silentActor.majorAttackChoice = false ∧
    determineOutcome (silentActor, silentActor) defaultEngineParams =
      (RoundOutcomeType.peace,
        (max 0 (defaultEngineParams.W1 -
            (if defaultEngineParams.investmentMode then defaultEngineParams.I1 else 0) +
            defaultEngineParams.V / 2),
         max 0 (defaultEngineParams.W2 -
            (if defaultEngineParams.investmentMode then defaultEngineParams.I2 else 0) +
            defaultEngineParams.V / 2))) := by
  have hy : ¬ 0 < silentActor.minorConflictChoice := by
    norm_num [silentActor]
  exact ⟨hy, rfl,
    (determineOutcome_silent_no_minor_cost defaultEngineParams silentActor silentActor
      hy hy).1 ⟨rfl, rfl⟩⟩

/-! ### Claims C1 and C6: the Nash solver's output contract -/

theorem verifyNE_iff (eu : EUFun) (a b : ℝ) :
    verifyNE eu a b = true ↔ NEcheck eu a b := by
  by_cases h : NEcheck eu a b <;> simp [verifyNE, h]

theorem clamp100_mem (x : ℝ) : 1 ≤ clamp100 x ∧ clamp100 x ≤ 100 := by
  unfold clamp100
  constructor
  · exact le_max_left _ _
  · exact max_le (by norm_num) (min_le_left _ _)

theorem roundClamped_ge_one (x : ℝ) : 1 ≤ roundClamped x := by
  unfold roundClamped
  rw [round_eq, Int.le_floor]
  have := (clamp100_mem x).1
  push_cast
  linarith

theorem roundClamped_le_100 (x : ℝ) : roundClamped x ≤ 100 := by
  unfold roundClamped
  rw [round_eq, Int.floor_le_iff]
  have := (clamp100_mem x).2
  push_cast
  linarith

theorem candOK_elim (eu : EUFun) (c : ℤ × ℤ) (h : candOK eu c = true) :
    (1 ≤ c.1 ∧ c.1 ≤ 100 ∧ 1 ≤ c.2 ∧ c.2 ≤ 100) ∧
      verifyNE eu (c.1 : ℝ) (c.2 : ℝ) = true := by
  unfold candOK at h
  split at h
  · exact ⟨by assumption, h⟩
  · exact absurd h (by simp)

theorem gtoSelect_bounds (eu : EUFun) (xp : ℝ × ℝ) :
    (1 ≤ (gtoSelect eu xp).1 ∧ (gtoSelect eu xp).1 ≤ 100) ∧
    (1 ≤ (gtoSelect eu xp).2.1 ∧ (gtoSelect eu xp).2.1 ≤ 100) := by
  unfold gtoSelect
  dsimp only
  split
  · exact ⟨⟨roundClamped_ge_one _, roundClamped_le_100 _⟩,
      ⟨roundClamped_ge_one _, roundClamped_le_100 _⟩⟩
  · split
    · next c hc =>
      have h := candOK_elim eu c (List.find?_some hc)
      exact ⟨⟨h.1.1, h.1.2.1⟩, ⟨h.1.2.2.1, h.1.2.2.2⟩⟩
    · exact ⟨⟨roundClamped_ge_one _, roundClamped_le_100 _⟩,
        ⟨roundClamped_ge_one _, roundClamped_le_100 _⟩⟩

theorem gtoSelect_converged (eu : EUFun) (xp : ℝ × ℝ)
    (h : (gtoSelect eu xp).2.2 = true) :
    verifyNE eu ((gtoSelect eu xp).1 : ℝ) ((gtoSelect eu xp).2.1 : ℝ) = true := by
  revert h
  unfold gtoSelect
  dsimp only
  split
  · next hv => intro _; exact hv
  · split
    · next c hc =>
      intro _
      exact (candOK_elim eu c (List.find?_some hc)).2
    · intro h
      exact absurd h (by simp)

theorem gtoSelect_fallback (eu : EUFun) (xp : ℝ × ℝ)
    (hv : verifyNE eu ((roundClamped xp.1 : ℤ) : ℝ) ((roundClamped xp.2 : ℤ) : ℝ) = false) :
    ((gtoCandidates xp.1 xp.2).find? (candOK eu) = none →
      gtoSelect eu xp = (roundClamped xp.1, roundClamped xp.2, false)) ∧
    (∀ c, (gtoCandidates xp.1 xp.2).find? (candOK eu) = some c →
      gtoSelect eu xp = (c.1, c.2, true)) := by
  constructor
  · intro hn
    unfold gtoSelect
    dsimp only
    rw [if_neg (by simp [hv]), hn]
  · intro c hc
    unfold gtoSelect
    dsimp only
    rw [if_neg (by simp [hv]), hc]

/-- C6: whatever the expected-utility function, the initial investment levels
and the behaviour of the damped iteration, the investment levels returned by
`solveGTO` are integers lying in the closed range `[1, 100]`. -/
theorem solveGTO_output_in_domain (eu : EUFun) (pI1 pI2 : ℝ) :
    (1 ≤ (solveGTO eu pI1 pI2).I1 ∧ (solveGTO eu pI1 pI2).I1 ≤ 100 ∧
      ∃ n : ℤ, (solveGTO eu pI1 pI2).I1 = (n : ℝ)) ∧
    (1 ≤ (solveGTO eu pI1 pI2).I2 ∧ (solveGTO eu pI1 pI2).I2 ≤ 100 ∧
      ∃ n : ℤ, (solveGTO eu pI1 pI2).I2 = (n : ℝ)) := by
  have hb := gtoSelect_bounds eu (rawPair (mannLoop eu 50 (initState pI1 pI2)))
  have h1 : (solveGTO eu pI1 pI2).I1 =
      ((gtoSelect eu (rawPair (mannLoop eu 50 (initState pI1 pI2)))).1 : ℝ) := rfl
  have h2 : (solveGTO eu pI1 pI2).I2 =
      ((gtoSelect eu (rawPair (mannLoop eu 50 (initState pI1 pI2)))).2.1 : ℝ) := rfl
  rw [h1, h2]
  refine ⟨⟨?_, ?_, ⟨_, rfl⟩⟩, ⟨?_, ?_, ⟨_, rfl⟩⟩⟩
  · exact_mod_cast hb.1.1
  · exact_mod_cast hb.1.2
  · exact_mod_cast hb.2.1
  · exact_mod_cast hb.2.2

/-- C1: if `solveGTO` reports `converged = true` then, at the returned integer
pair, neither player's expected utility improves by more than `1e-9` under a
unilateral deviation of `±1` inside `[1, 100]`; and when verification fails at
the rounded pair, the four adjacent integer roundings (floor/floor, ceil/ceil,
floor/ceil, ceil/floor — the order of `gtoCandidates`) are tried in turn, the
first that passes being returned with `converged = true`, and only if none
passes is `converged = false` returned (with the rounded pair). -/
theorem solveGTO_converged_contract (eu : EUFun) (pI1 pI2 : ℝ) :
    ((solveGTO eu pI1 pI2).converged = true →
      (((1 ≤ (solveGTO eu pI1 pI2).I1 - 1 ∧ (solveGTO eu pI1 pI2).I1 - 1 ≤ 100) →
          eu (solveGTO eu pI1 pI2).I1 (solveGTO eu pI1 pI2).I2 true ≥
            eu ((solveGTO eu pI1 pI2).I1 - 1) (solveGTO eu pI1 pI2).I2 true - 1e-9) ∧
       ((1 ≤ (solveGTO eu pI1 pI2).I1 + 1 ∧ (solveGTO eu pI1 pI2).I1 + 1 ≤ 100) →
          eu (solveGTO eu pI1 pI2).I1 (solveGTO eu pI1 pI2).I2 true ≥
            eu ((solveGTO eu pI1 pI2).I1 + 1) (solveGTO eu pI1 pI2).I2 true - 1e-9) ∧
       ((1 ≤ (solveGTO eu pI1 pI2).I2 - 1 ∧ (solveGTO eu pI1 pI2).I2 - 1 ≤ 100) →
          eu (solveGTO eu pI1 pI2).I2 (solveGTO eu pI1 pI2).I1 false ≥
            eu ((solveGTO eu pI1 pI2).I2 - 1) (solveGTO eu pI1 pI2).I1 false - 1e-9) ∧
       ((1 ≤ (solveGTO eu pI1 pI2).I2 + 1 ∧ (solveGTO eu pI1 pI2).I2 + 1 ≤ 100) →
          eu (solveGTO eu pI1 pI2).I2 (solveGTO eu pI1 pI2).I1 false ≥
            eu ((solveGTO eu pI1 pI2).I2 + 1) (solveGTO eu pI1 pI2).I1 false - 1e-9))) ∧
    (verifyNE eu
        ((roundClamped (rawPair (mannLoop eu 50 (initState pI1 pI2))).1 : ℤ) : ℝ)
        ((roundClamped (rawPair (mannLoop eu 50 (initState pI1 pI2))).2 : ℤ) : ℝ) = false →
      (((gtoCandidates (rawPair (mannLoop eu 50 (initState pI1 pI2))).1
            (rawPair (mannLoop eu 50 (initState pI1 pI2))).2).find? (candOK eu) = none →
          (solveGTO eu pI1 pI2).converged = false ∧
          (solveGTO eu pI1 pI2).I1 =
            ((roundClamped (rawPair (mannLoop eu 50 (initState pI1 pI2))).1 : ℤ) : ℝ) ∧
          (solveGTO eu pI1 pI2).I2 =
            ((roundClamped (rawPair (mannLoop eu 50 (initState pI1 pI2))).2 : ℤ) : ℝ)) ∧
       (∀ c, (gtoCandidates (rawPair (mannLoop eu 50 (initState pI1 pI2))).1
            (rawPair (mannLoop eu 50 (initState pI1 pI2))).2).find? (candOK eu) = some c →
          (solveGTO eu pI1 pI2).converged = true ∧
          (solveGTO eu pI1 pI2).I1 = (c.1 : ℝ) ∧
          (solveGTO eu pI1 pI2).I2 = (c.2 : ℝ)))) := by
  have h1 : (solveGTO eu pI1 pI2).I1 =
      ((gtoSelect eu (rawPair (mannLoop eu 50 (initState pI1 pI2)))).1 : ℝ) := rfl
  have h2 : (solveGTO eu pI1 pI2).I2 =
      ((gtoSelect eu (rawPair (mannLoop eu 50 (initState pI1 pI2)))).2.1 : ℝ) := rfl
  have hc : (solveGTO eu pI1 pI2).converged =
      (gtoSelect eu (rawPair (mannLoop eu 50 (initState pI1 pI2)))).2.2 := rfl
  constructor
  · intro hconv
    rw [hc] at hconv
    have hne := (verifyNE_iff eu _ _).1 (gtoSelect_converged eu _ hconv)
    rw [h1, h2]
    exact ⟨fun hd => by linarith [hne.1 hd], fun hd => by linarith [hne.2.1 hd],
      fun hd => by linarith [hne.2.2.1 hd], fun hd => by linarith [hne.2.2.2 hd]⟩
  · intro hv
    have hf := gtoSelect_fallback eu (rawPair (mannLoop eu 50 (initState pI1 pI2))) hv
    constructor
    · intro hn
      have := hf.1 hn
      rw [hc, h1, h2, this]
      exact ⟨rfl, rfl, rfl⟩
    · intro c hcand
      have := hf.2 c hcand
      rw [hc, h1, h2, this]
      exact ⟨rfl, rfl, rfl⟩

/-- Witness for `solveGTO_converged_contract`: with the constant-zero
expected-utility function every pair verifies, so the solver converges and the
deviation bounds hold at its output. -/
theorem solveGTO_converged_contract_witness :
    (solveGTO euZero 10 10).converged = true ∧
    (((1 ≤ (solveGTO euZero 10 10).I1 - 1 ∧ (solveGTO euZero 10 10).I1 - 1 ≤ 100) →
        euZero (solveGTO euZero 10 10).I1 (solveGTO euZero 10 10).I2 true ≥
          euZero ((solveGTO euZero 10 10).I1 - 1) (solveGTO euZero 10 10).I2 true - 1e-9) ∧
     ((1 ≤ (solveGTO euZero 10 10).I1 + 1 ∧ (solveGTO euZero 10 10).I1 + 1 ≤ 100) →
        euZero (solveGTO euZero 10 10).I1 (solveGTO euZero 10 10).I2 true ≥
          euZero ((solveGTO euZero 10 10).I1 + 1) (solveGTO euZero 10 10).I2 true - 1e-9) ∧
     ((1 ≤ (solveGTO euZero 10 10).I2 - 1 ∧ (solveGTO euZero 10 10).I2 - 1 ≤ 100) →
        euZero (solveGTO euZero 10 10).I2 (solveGTO euZero 10 10).I1 false ≥
          euZero ((solveGTO euZero 10 10).I2 - 1) (solveGTO euZero 10 10).I1 false - 1e-9) ∧
     ((1 ≤ (solveGTO euZero 10 10).I2 + 1 ∧ (solveGTO euZero 10 10).I2 + 1 ≤ 100) →
        euZero (solveGTO euZero 10 10).I2 (solveGTO euZero 10 10).I1 false ≥
          euZero ((solveGTO euZero 10 10).I2 + 1) (solveGTO euZero 10 10).I1 false - 1e-9)) := by
  have hNE : ∀ a b : ℝ, NEcheck euZero a b := by
    intro a b
    refine ⟨?_, ?_, ?_, ?_⟩ <;> intro _ <;> norm_num [euZero]
  have hv : ∀ a b : ℝ, verifyNE euZero a b = true :=
    fun a b => (verifyNE_iff euZero a b).2 (hNE a b)
  have hconv : (solveGTO euZero 10 10).converged = true := by
    have hc : (solveGTO euZero 10 10).converged =
        (gtoSelect euZero (rawPair (mannLoop euZero 50 (initState 10 10)))).2.2 := rfl
    rw [hc]
    unfold gtoSelect
    dsimp only
    rw [if_pos (hv _ _)]
  exact ⟨hconv, (solveGTO_converged_contract euZero 10 10).1 hconv⟩

end CAPF
